import Mathlib

/-!
# Vector visualisation: embedding of `main.cpp`

The program draws a ground grid, two user vectors and the result of a dot or
cross product with OpenGL.  The embedding keeps the numeric type `α` abstract
(the source uses `float`); every arithmetic definition is computable over any
field, and the transcendental primitives of the C++ standard library
(`sqrt`, `cos`, `sin`, the constant pi) are taken as parameters.  Theorems that
instantiate `α` with the reals speak about exact arithmetic; the type `F32` gives
the additions and multiplications of `float` itself, rounding included, and is
used where the two differ.

OpenGL is modelled as explicit state: the values of the `color` and `alpha`
uniforms, the vertex arrays that currently exist, and a trace of the draw
calls issued so far, each with the vertices it fetches and the uniform values
in effect when it is issued.
-/

namespace VectorVis

/-! ## Vectors (`glm::vec3`) -/

/-- Three-component vector, the counterpart of `glm::vec3`. -/
structure Vec3 (α : Type) where
  x : α
  y : α
  z : α
deriving DecidableEq, Repr

/-- Modelled from the spec: `glm::dot` is a GLM library primitive that is not part of
the repository sources; it is the componentwise dot product. -/
def dot {α : Type} [Add α] [Mul α] (a b : Vec3 α) : α :=
  a.x * b.x + a.y * b.y + a.z * b.z

/-- Modelled from the spec: `glm::cross` is a GLM library primitive that is not part of
the repository sources; it is the right-handed cross product. -/
def cross {α : Type} [Sub α] [Mul α] (a b : Vec3 α) : Vec3 α :=
  ⟨a.y * b.z - b.y * a.z, a.z * b.x - b.z * a.x, a.x * b.y - b.x * a.y⟩

/-- Componentwise `vec3 + vec3`. -/
def vadd {α : Type} [Add α] (a b : Vec3 α) : Vec3 α :=
  ⟨a.x + b.x, a.y + b.y, a.z + b.z⟩

/-- Componentwise `vec3 - vec3`. -/
def vsub {α : Type} [Sub α] (a b : Vec3 α) : Vec3 α :=
  ⟨a.x - b.x, a.y - b.y, a.z - b.z⟩

/-- The product `vec3 * float`. -/
def scale {α : Type} [Mul α] (a : Vec3 α) (k : α) : Vec3 α :=
  ⟨a.x * k, a.y * k, a.z * k⟩

/-- Modelled from the spec: `glm::length` is a GLM library primitive that is not part of
the repository sources; it is the square root of the dot product of a vector with
itself.  The square root is a parameter. -/
def length {α : Type} [Add α] [Mul α] (sqrt : α → α) (v : Vec3 α) : α :=
  sqrt (dot v v)

/-- Modelled from the spec: `glm::normalize` is a GLM library primitive that is not part
of the repository sources; it multiplies the vector by the inverse square root of
its squared length. -/
def normalize {α : Type} [Add α] [Mul α] [Div α] [One α] (sqrt : α → α) (v : Vec3 α) : Vec3 α :=
  scale v (1 / sqrt (dot v v))

/-- Modelled from the spec: `glm::radians` is a GLM library primitive that is not part
of the repository sources; it converts degrees to radians. -/
def radians {α : Type} [Mul α] [Div α] [OfNat α 180] (pi : α) (degrees : α) : α :=
  degrees * (pi / 180)

/-- A 4x4 matrix, given by its four rows. -/
abbrev Mat4 (α : Type) := List (List α)

/-- Modelled from the spec: `glm::lookAt` is a GLM library primitive that is not part of
the repository sources; this is its right-handed form: the forward axis is the
normalised direction from the eye to the centre, the side axis the normalised cross
product of forward and up. -/
def lookAt {α : Type} [Field α] (sqrt : α → α) (eye center up : Vec3 α) : Mat4 α :=
  let f := normalize sqrt (vsub center eye)
  let s := normalize sqrt (cross f up)
  let u := cross s f
  [[s.x, s.y, s.z, -dot s eye],
   [u.x, u.y, u.z, -dot u eye],
   [-f.x, -f.y, -f.z, dot f eye],
   [0, 0, 0, 1]]

/-! ## OpenGL state -/

/-- Primitive mode of a draw call. -/
inductive Prim where
  | lines
  | triangles
deriving DecidableEq, Repr

/-- A draw call as it reaches the pipeline: the vertices it fetches, in order (`none`
for a read past the end of the vertex buffer), and the uniforms in effect. -/
structure DrawCall (α : Type) where
  mode : Prim
  fetched : List (Option (Vec3 α))
  color : Vec3 α
  alpha : α
  model : Vec3 α
deriving DecidableEq, Repr

/-- What the program writes to standard output. -/
inductive Output (α : Type) where
  | text (line : String)
  | value (label : String) (v : α)
deriving DecidableEq, Repr

/-- The part of the OpenGL context and of the process state the program acts on.
`arrays` lists the vertex array objects that exist, each with the floats that its
attribute 0 reads (three per vertex); `model` is the translation of the `model`
uniform, whose matrix is otherwise the identity; `draws` are the draw calls issued
since the framebuffer was last cleared. -/
structure GLState (α : Type) where
  nextName : Nat
  arrays : List (Nat × List α)
  bound : Nat
  elements : List Nat
  color : Vec3 α
  alpha : α
  model : Vec3 α
  view : Mat4 α
  lineWidth : α
  lineSmooth : Bool
  blend : Bool
  depthTest : Bool
  draws : List (DrawCall α)
  console : List (Output α)

/-- A fresh context: no objects, every uniform zero, nothing drawn or printed. -/
def GLState.fresh {α : Type} [Field α] : GLState α :=
  { nextName := 0, arrays := [], bound := 0, elements := [],
    color := ⟨0, 0, 0⟩, alpha := 0, model := ⟨0, 0, 0⟩, view := [],
    lineWidth := 1, lineSmooth := false, blend := false, depthTest := false,
    draws := [], console := [] }

/-- The calls `glGenVertexArrays`, `glGenBuffers`, `glCreateShader`, `glCreateProgram`:
a new non-zero object name (one counter serves every kind of object). -/
def genName {α : Type} (st : GLState α) : Nat × GLState α :=
  (st.nextName + 1, { st with nextName := st.nextName + 1 })

/-- The call `glBindVertexArray`. -/
def bindVertexArray {α : Type} (st : GLState α) (vao : Nat) : GLState α :=
  { st with bound := vao }

/-- The sequence `glBindBuffer(GL_ARRAY_BUFFER, vbo); glBufferData(...);
glVertexAttribPointer(0, 3, GL_FLOAT, GL_FALSE, 3 * sizeof(float), 0);
glEnableVertexAttribArray(0)`: attribute 0 of the bound vertex array now reads `data`. -/
def bufferData {α : Type} (st : GLState α) (data : List α) : GLState α :=
  { st with arrays := (st.bound, data) :: st.arrays.filter (fun e => e.1 != st.bound) }

/-- The sequence `glBindBuffer(GL_ELEMENT_ARRAY_BUFFER, ebo); glBufferData(...)`. -/
def elementData {α : Type} (st : GLState α) (indices : List Nat) : GLState α :=
  { st with elements := indices }

/-- The call `glDeleteVertexArrays` (with the `glDeleteBuffers` that goes with it). -/
def deleteVertexArray {α : Type} (st : GLState α) (vao : Nat) : GLState α :=
  { st with arrays := st.arrays.filter (fun e => e.1 != vao),
            bound := if st.bound = vao then 0 else st.bound }

/-- Attribute layout of every buffer of the program: three consecutive floats per vertex. -/
def toVertices {α : Type} : List α → List (Vec3 α)
  | x :: y :: z :: rest => ⟨x, y, z⟩ :: toVertices rest
  | _ => []

/-- Vertices that attribute 0 of the bound vertex array provides. -/
def boundVertices {α : Type} (st : GLState α) : List (Vec3 α) :=
  match st.arrays.find? (fun e => e.1 == st.bound) with
  | some e => toVertices e.2
  | none => []

/-- Record a draw call with the uniforms now in effect. -/
def issue {α : Type} (st : GLState α) (mode : Prim) (fetched : List (Option (Vec3 α))) :
    GLState α :=
  { st with draws := st.draws ++ [⟨mode, fetched, st.color, st.alpha, st.model⟩] }

/-- The call `glDrawArrays(mode, first, count)`: fetches `count` consecutive vertices. -/
def drawArrays {α : Type} (st : GLState α) (mode : Prim) (first count : Nat) : GLState α :=
  issue st mode ((List.range count).map (fun k => (boundVertices st)[first + k]?))

/-- The call `glDrawElements(mode, count, GL_UNSIGNED_INT, 0)`: fetches the vertices named
by the first `count` entries of the element buffer. -/
def drawElements {α : Type} (st : GLState α) (mode : Prim) (count : Nat) : GLState α :=
  issue st mode ((st.elements.take count).map (fun i => (boundVertices st)[i]?))

/-- Write a line to standard output. -/
def print {α : Type} (st : GLState α) (o : Output α) : GLState α :=
  { st with console := st.console ++ [o] }

/-! ## The program -/

section Program

set_option linter.unusedVariables false

/-- The file-scope camera variables `panX`, `panY`, `panAngleX`, `panAngleY`. -/
structure Globals (α : Type) where
  panX : α
  panY : α
  panAngleX : α
  panAngleY : α
deriving DecidableEq, Repr

/-- The loop `for (float i = start; i <= limit; i += step) body`.  The first argument
bounds the number of times the condition is tested; the result is `none` when the bound
is used up before the condition fails, and otherwise the accumulated value together with
the number of times the body ran. -/
def forFloat {α β : Type} [LinearOrderedField α] (limit step : α) (body : α → β → β) :
    Nat → α → β → Nat → Option (β × Nat)
  | 0, _, _, _ => none
  | fuel + 1, i, acc, n =>
    if i ≤ limit then forFloat limit step body fuel (i + step) (body i acc) (n + 1)
    else some (acc, n)

/-- The first part of `setupGrid`: the two loops that fill `gridVertices`.  Returns the
vector and the number of iterations of the first and of the second loop. -/
def gridVertices {α : Type} [LinearOrderedField α] (fuel : Nat) : Option (List α × Nat × Nat) :=
  let gridSize : α := 10
  let gridStep : α := 1
  match forFloat gridSize gridStep
      (fun i acc => acc ++ [-gridSize, 0, i] ++ [gridSize, 0, i]) fuel (-gridSize) [] 0 with
  | none => none
  | some (vs, n1) =>
    match forFloat gridSize gridStep
        (fun i acc => acc ++ [i, 0, -gridSize] ++ [i, 0, gridSize]) fuel (-gridSize) vs 0 with
    | none => none
    | some (vs, n2) => some (vs, n1, n2)

/-- The function `setupGrid`: builds the grid vertices and uploads them into a new vertex
array, whose name it returns.  The camera variables are in scope of the function, which is
why they are an argument. -/
def setupGrid {α : Type} [LinearOrderedField α] (fuel : Nat) (cam : Globals α)
    (st : GLState α) : Option (Nat × GLState α) :=
  match gridVertices fuel with
  | none => none
  | some (gridVertices, _, _) =>
    let (gridVAO, st) := genName st
    let (gridVBO, st) := genName st
    let st := bindVertexArray st gridVAO
    let st := bufferData st gridVertices
    let st := bindVertexArray st 0
    some (gridVAO, st)

/-- The function `drawGrid`. -/
def drawGrid {α : Type} [Field α] (st : GLState α) (shaderProgram gridVAO lineCount : Nat) :
    GLState α :=
  let st := bindVertexArray st gridVAO
  let st := { st with color := ⟨1 / 2, 1 / 2, 1 / 2⟩ }
  let st := { st with alpha := 3 / 10 }
  let st := { st with model := ⟨0, 0, 0⟩ }
  let st := drawArrays st Prim.lines 0 lineCount
  bindVertexArray st 0

/-- The function `drawVector`.  It sets the `color` and `model` uniforms and leaves
`alpha` as it finds it. -/
def drawVector {α : Type} [Field α] (st : GLState α) (shaderProgram : Nat)
    (vector color : Vec3 α) : GLState α :=
  let thickness : α := 4
  let vertices : List α := [0, 0, 1 / 100, vector.x, vector.y, vector.z + 1 / 100]
  let (VAO, st) := genName st
  let (VBO, st) := genName st
  let st := bindVertexArray st VAO
  let st := bufferData st vertices
  let st := { st with color := color }
  let st := { st with model := ⟨0, 0, 1 / 100⟩ }
  let st := { st with lineWidth := thickness }
  let st := { st with lineSmooth := true }
  let st := drawArrays st Prim.lines 0 2
  deleteVertexArray st VAO

/-- Shader stage, `GL_VERTEX_SHADER` or `GL_FRAGMENT_SHADER`. -/
inductive ShaderType where
  | vertex
  | fragment
deriving DecidableEq, Repr

/-- What the OpenGL driver answers: whether a source compiles, whether the program made
of two shader objects links, and the text of the logs. -/
structure Driver where
  compileStatus : ShaderType → String → Bool
  shaderInfoLog : ShaderType → String → String
  linkStatus : Nat → Nat → Bool
  programInfoLog : Nat → Nat → String

/-- The function `compileShader`. -/
def compileShader {α : Type} (d : Driver) (st : GLState α) (type : ShaderType)
    (source : String) : Nat × GLState α :=
  let (shader, st) := genName st
  let success := d.compileStatus type source
  if !success then
    let infoLog := d.shaderInfoLog type source
    (0, print st (Output.text ("ERROR::SHADER::COMPILATION_FAILED\n" ++ infoLog)))
  else
    (shader, st)

/-- The function `createShaderProgram`.  Deleting the two shader objects has no effect on
the modelled state. -/
def createShaderProgram {α : Type} (d : Driver) (st : GLState α)
    (vertexShader fragmentShader : String) : Nat × GLState α :=
  let (vertexShaderID, st) := compileShader d st ShaderType.vertex vertexShader
  let (fragmentShaderID, st) := compileShader d st ShaderType.fragment fragmentShader
  let (shaderProgram, st) := genName st
  let success := d.linkStatus vertexShaderID fragmentShaderID
  let st :=
    if !success then
      let infoLog := d.programInfoLog vertexShaderID fragmentShaderID
      print st (Output.text ("ERROR::SHADER::PROGRAM::LINKING_FAILED\n" ++ infoLog))
    else st
  (shaderProgram, st)

/-- The function `drawDotProduct`. -/
def drawDotProduct {α : Type} [Field α] (sqrt : α → α) (st : GLState α) (shaderProgram : Nat)
    (v1 v2 : Vec3 α) : GLState α :=
  let dotProduct := dot v1 v2
  let st := drawVector st shaderProgram v1 ⟨1, 0, 0⟩
  let st := drawVector st shaderProgram v2 ⟨0, 1, 0⟩
  let scaledV2 := scale (normalize sqrt v2) dotProduct
  let st := drawVector st shaderProgram scaledV2 ⟨0, 0, 1⟩
  print st (Output.value "Dot product: " dotProduct)

/-- The array `parallelogramVertices` of `drawCrossProduct`. -/
def parallelogramVertices {α : Type} [Add α] [Zero α] (v1 v2 : Vec3 α) : List α :=
  [0, 0, 0,
   v1.x, v1.y, v1.z,
   v2.x, v2.y, v2.z,
   v1.x + v2.x, v1.y + v2.y, v1.z + v2.z]

/-- The array `indices` of `drawCrossProduct`. -/
def indices : List Nat :=
  [0, 1, 2,
   1, 2, 3]

/-- The function `drawCrossProduct`. -/
def drawCrossProduct {α : Type} [Field α] (sqrt : α → α) (st : GLState α)
    (shaderProgram : Nat) (v1 v2 : Vec3 α) : GLState α :=
  let crossProduct := cross v1 v2
  let st := { st with lineWidth := 4 }
  let st := drawVector st shaderProgram v1 ⟨1, 0, 0⟩
  let st := drawVector st shaderProgram v2 ⟨0, 1, 0⟩
  let st := drawVector st shaderProgram crossProduct ⟨0, 0, 1⟩
  let (VAO, st) := genName st
  let (VBO, st) := genName st
  let st := bindVertexArray st VAO
  let st := bufferData st (parallelogramVertices v1 v2)
  let (EBO, st) := genName st
  let st := elementData st indices
  let st := { st with blend := true }
  let st := { st with depthTest := true }
  let st := { st with color := ⟨1 / 2, 1 / 2, 1 / 2⟩ }
  let st := { st with alpha := 3 / 10 }
  let st := { st with model := ⟨0, 0, 0⟩ }
  let st := drawElements st Prim.triangles 6
  let st := deleteVertexArray st VAO
  let st := elementData st []
  let st := { st with alpha := 1 }
  print st (Output.value "Area of the parallelogram (cross product magnitude): "
    (length sqrt crossProduct))

/-- The variables of `main` together with the file-scope camera variables and the
OpenGL context. -/
structure App (α : Type) where
  gl : GLState α
  cam : Globals α
  shaderProgram : Nat
  gridVAO : Nat
  gridLineCount : Nat
  v1 : Vec3 α
  v2 : Vec3 α
  operation : Int
  zoomLevel : α

/-- What the control panel leaves in the variables bound to its widgets in one frame
(the values are unchanged when the user touches nothing). -/
structure PanelInput (α : Type) where
  v1 : Vec3 α
  v2 : Vec3 α
  operation : Int
  zoomLevel : α
  cam : Globals α

/-- The first argument of `glm::lookAt` in the render loop: the eye position. -/
def cameraEye {α : Type} [Field α] (cos sin : α → α) (pi : α) (cam : Globals α) : Vec3 α :=
  ⟨5 * cos (radians pi cam.panAngleX) * cos (radians pi cam.panAngleY),
   5 * sin (radians pi cam.panAngleY),
   5 * sin (radians pi cam.panAngleX) * cos (radians pi cam.panAngleY)⟩

/-- The second argument of `glm::lookAt` in the render loop: the look-at target. -/
def cameraTarget {α : Type} [Field α] (cam : Globals α) : Vec3 α :=
  ⟨cam.panX, cam.panY, 0⟩

/-- The part of `main` before the render loop, for a window and an extension loader that
initialise; the shader sources are arguments. -/
def start {α : Type} [LinearOrderedField α] (d : Driver) (vertexShaderSource
    fragmentShaderSource : String) (fuel : Nat) : Option (App α) :=
  let cam : Globals α := ⟨0, 0, 0, 0⟩
  let gl : GLState α := { (GLState.fresh : GLState α) with depthTest := true }
  let (shaderProgram, gl) := createShaderProgram d gl vertexShaderSource fragmentShaderSource
  match setupGrid fuel cam gl with
  | none => none
  | some (gridVAO, gl) =>
    let gridLineCount := 40
    some { gl := gl, cam := cam, shaderProgram := shaderProgram, gridVAO := gridVAO,
           gridLineCount := gridLineCount, v1 := ⟨1, 0, 0⟩, v2 := ⟨0, 1, 0⟩,
           operation := 0, zoomLevel := 45 }

/-- One iteration of the render loop of `main`: clear the framebuffer, compute the view
from the camera variables as they are at the start of the frame, draw the grid with the
count `gridLineCount * 2`, let the panel write its variables, draw the selected operation.
The projection uniform and the overlay rendering do not touch the modelled state. -/
def frame {α : Type} [Field α] (sqrt cos sin : α → α) (pi : α) (input : PanelInput α)
    (app : App α) : App α :=
  let gl := { app.gl with draws := [] }
  let view := lookAt sqrt (cameraEye cos sin pi app.cam) (cameraTarget app.cam) ⟨0, 1, 0⟩
  let gl := { gl with view := view }
  let gl := drawGrid gl app.shaderProgram app.gridVAO (app.gridLineCount * 2)
  let app := { app with v1 := input.v1, v2 := input.v2, operation := input.operation,
                        zoomLevel := input.zoomLevel, cam := input.cam }
  let gl :=
    if app.operation = 0 then drawDotProduct sqrt gl app.shaderProgram app.v1 app.v2
    else if app.operation = 1 then drawCrossProduct sqrt gl app.shaderProgram app.v1 app.v2
    else gl
  { app with gl := gl }

/-- The render loop over the frames of a session, one panel input per frame. -/
def run {α : Type} [Field α] (sqrt cos sin : α → α) (pi : α) :
    List (PanelInput α) → App α → App α
  | [], app => app
  | input :: rest, app => run sqrt cos sin pi rest (frame sqrt cos sin pi input app)

/-- Primitive assembly of `GL_LINES`: consecutive pairs of vertices. -/
def segments {β : Type} : List β → List (β × β)
  | a :: b :: rest => (a, b) :: segments rest
  | _ => []

/-- Primitive assembly of `GL_TRIANGLES`: consecutive triples of vertices. -/
def triangles {β : Type} : List β → List (β × β × β)
  | a :: b :: c :: rest => (a, b, c) :: triangles rest
  | _ => []

/-- Area of the parallelogram with corners `o`, `a`, `b` and `a + b - o`, from its two
edges `e1 = a - o` and `e2 = b - o` at the corner `o`: the square root of
`|e1|^2 |e2|^2 - (e1 . e2)^2`, that is base times height. -/
def parallelogramArea {α : Type} [Field α] (sqrt : α → α) (o a b : Vec3 α) : α :=
  let e1 := vsub a o
  let e2 := vsub b o
  sqrt (dot e1 e1 * dot e2 e2 - dot e1 e2 * dot e1 e2)

/-- The eye position as the specification words it: the look-at target plus five times
the unit vector of the two orbit angles. -/
def specEye {α : Type} [Field α] (cos sin : α → α) (pi : α) (cam : Globals α) : Vec3 α :=
  vadd (cameraTarget cam)
    (scale ⟨cos (radians pi cam.panAngleX) * cos (radians pi cam.panAngleY),
            sin (radians pi cam.panAngleY),
            sin (radians pi cam.panAngleX) * cos (radians pi cam.panAngleY)⟩ 5)

end Program

/-- The grid buffer is in place: the only vertex array that exists between two draw calls
of a frame is the grid, with the floats `vs`, under a name already handed out, and `main`
holds 40 as its line count. -/
def GridIntact {α : Type} (vs : List α) (app : App α) : Prop :=
  app.gl.arrays = [(app.gridVAO, vs)] ∧ app.gridVAO ≤ app.gl.nextName ∧
    app.gridLineCount = 40

/-- Closed form of the floats `setupGrid` uploads: for each `k` from 0 to 20 the two end
points of the line at depth `-10 + k`, then for each `k` the two end points of the line at
abscissa `-10 + k`. -/
def gridData {α : Type} [LinearOrderedField α] : List α :=
  (List.range 21).flatMap (fun (k : Nat) => [-10, 0, -10 + (k : α) * 1, 10, 0, -10 + (k : α) * 1]) ++
  (List.range 21).flatMap (fun (k : Nat) => [-10 + (k : α) * 1, 0, -10, -10 + (k : α) * 1, 0, 10])

/-- A driver on which both shaders compile and the program does not link. -/
def linkFailure : Driver :=
  { compileStatus := fun _ _ => true
    shaderInfoLog := fun _ _ => ""
    linkStatus := fun _ _ => false
    programInfoLog := fun _ _ => "error: linking failed" }

/-- A driver on which no shader compiles. -/
def compileFailure : Driver :=
  { compileStatus := fun _ _ => false
    shaderInfoLog := fun _ _ => "error: syntax error"
    linkStatus := fun _ _ => false
    programInfoLog := fun _ _ => "error: linking failed" }

/-- Area of the triangle with corners `a`, `b`, `c`, from its two edges `e1 = b - a` and
`e2 = c - a` at the corner `a`: half the square root of `|e1|^2 |e2|^2 - (e1 . e2)^2`. -/
def triangleArea {α : Type} [Field α] (sqrt : α → α) (a b c : Vec3 α) : α :=
  let e1 := vsub b a
  let e2 := vsub c a
  sqrt (dot e1 e1 * dot e2 e2 - dot e1 e2 * dot e1 e2) / 2

/-- Area a fill draw covers: the sum of the areas of the triangles assembled from the
vertices it fetches; `none` when the call does not draw triangles or one of its fetches is
past the end of the vertex buffer. -/
def fillArea {α : Type} [Field α] (sqrt : α → α) (d : DrawCall α) : Option α :=
  if d.mode = Prim.triangles then
    (triangles d.fetched).foldl
      (fun acc t =>
        match acc, t with
        | some s, (some a, some b, some c) => some (s + triangleArea sqrt a b c)
        | _, _ => none)
      (some 0)
  else none

/-! ## The arithmetic of `float`

The type `float` of the source is IEEE 754 binary32.  Its finite values are the numbers
`m * 2 ^ e` with integers `m` and `e`; an operation computes the exact result and rounds
it to the nearest such number, ties to even.  Only what `glm::cross` and the corner
`v1 + v2` of the parallelogram need is modelled: addition, subtraction, multiplication
(each rounded on its own, no fused multiply-add). -/

/-- A value of the C++ type `float` (IEEE 754 binary32): not-a-number, an infinity with
its sign, or the finite number `m * 2 ^ e`.  The sign of zero is not tracked. -/
inductive F32 where
  | nan
  | inf (negative : Bool)
  | fin (m : Int) (e : Int)
deriving DecidableEq, Repr

/-- Number of binary digits of `n`, given at least `n` steps. -/
def bitLength : Nat → Nat → Nat
  | 0, _ => 0
  | steps + 1, n => if n = 0 then 0 else bitLength steps (n / 2) + 1

/-- Division of `n` by `2 ^ s` rounded to the nearest integer, ties to even. -/
def roundShift (n s : Nat) : Nat :=
  let q := n / 2 ^ s
  let r := n % 2 ^ s
  if 2 * r < 2 ^ s then q
  else if 2 ^ s < 2 * r then q + 1
  else if q % 2 = 0 then q else q + 1

/-- Rounding of the exact number `m * 2 ^ e` to `float`, to nearest with ties to even: a
significand of at most 24 bits, the exponent of the last place between -149 and 104
(below the binade of `2 ^ -126` the numbers are subnormal), and infinity when the rounded
magnitude reaches `2 ^ 128`.  A finite result has `2 ^ 23 ≤ |m| < 2 ^ 24`, or `e = -149`
and `|m| < 2 ^ 23`, so equal numbers are equal values. -/
def F32.round (m e : Int) : F32 :=
  let n := m.natAbs
  if n = 0 then F32.fin 0 (-149)
  else
    let binade : Int := e + (bitLength n n : Int) - 1
    let last : Int := max binade (-126) - 23
    let sig : Nat :=
      if last ≤ e then n * 2 ^ (e - last).toNat else roundShift n (last - e).toNat
    let carried : Nat × Int := if sig = 2 ^ 24 then (2 ^ 23, last + 1) else (sig, last)
    if 104 < carried.2 then F32.inf (decide (m < 0))
    else F32.fin (if m < 0 then -(carried.1 : Int) else (carried.1 : Int)) carried.2

/-- The `float` nearest to the integer `n`: what a literal or a typed number becomes. -/
def F32.ofInt (n : Int) : F32 :=
  F32.round n 0

/-- Negation of a `float`. -/
def F32.neg : F32 → F32
  | F32.nan => F32.nan
  | F32.inf s => F32.inf (!s)
  | F32.fin m e => F32.fin (-m) e

/-- Addition of two `float`s: infinities of opposite sign give not-a-number, finite
operands give the rounded exact sum. -/
def F32.add : F32 → F32 → F32
  | F32.nan, _ => F32.nan
  | _, F32.nan => F32.nan
  | F32.inf s, F32.inf t => if s = t then F32.inf s else F32.nan
  | F32.inf s, F32.fin _ _ => F32.inf s
  | F32.fin _ _, F32.inf t => F32.inf t
  | F32.fin m1 e1, F32.fin m2 e2 =>
    let e := min e1 e2
    F32.round (m1 * 2 ^ (e1 - e).toNat + m2 * 2 ^ (e2 - e).toNat) e

/-- Multiplication of two `float`s: infinity times zero gives not-a-number, finite
operands give the rounded exact product. -/
def F32.mul : F32 → F32 → F32
  | F32.nan, _ => F32.nan
  | _, F32.nan => F32.nan
  | F32.inf s, F32.inf t => F32.inf (s != t)
  | F32.inf s, F32.fin m _ => if m = 0 then F32.nan else F32.inf (s != decide (m < 0))
  | F32.fin m _, F32.inf t => if m = 0 then F32.nan else F32.inf (decide (m < 0) != t)
  | F32.fin m1 e1, F32.fin m2 e2 => F32.round (m1 * m2) (e1 + e2)

instance F32.instZero : Zero F32 := ⟨F32.fin 0 (-149)⟩

instance F32.instAdd : Add F32 := ⟨F32.add⟩

instance F32.instSub : Sub F32 := ⟨fun a b => F32.add a (F32.neg b)⟩

instance F32.instMul : Mul F32 := ⟨F32.mul⟩

/-- The number a `float` stands for, when it is finite. -/
def F32.toRat : F32 → Option ℚ
  | F32.fin m e => some ((m : ℚ) * (2 : ℚ) ^ e)
  | _ => none

/-- The vector of numbers a vector of `float`s stands for, when all three are finite. -/
def vecToRat (v : Vec3 F32) : Option (Vec3 ℚ) :=
  match v.x.toRat, v.y.toRat, v.z.toRat with
  | some x, some y, some z => some ⟨x, y, z⟩
  | _, _, _ => none

/-! # Theorems -/

/-! ## Effect of the drawing functions on the state -/

/-- The state `drawVector` leaves: two names used, its vertex array gone again, one line
drawn with the colour passed in and the alpha that was already set. -/
theorem drawVector_state {α : Type} [Field α] (st : GLState α) (p : Nat) (v c : Vec3 α) :
    drawVector st p v c =
      { st with
        nextName := st.nextName + 2
        arrays := st.arrays.filter (fun e => e.1 != st.nextName + 1)
        bound := 0
        color := c
        model := ⟨0, 0, 1 / 100⟩
        lineWidth := 4
        lineSmooth := true
        draws := st.draws ++
          [⟨Prim.lines, [some ⟨0, 0, 1 / 100⟩, some ⟨v.x, v.y, v.z + 1 / 100⟩],
            c, st.alpha, ⟨0, 0, 1 / 100⟩⟩] } := by
  simp [drawVector, genName, bindVertexArray, bufferData, drawArrays, issue, boundVertices,
    deleteVertexArray, toVertices, List.range_succ, List.filter_filter]

/-- The draw calls of `drawCrossProduct`: three lines and the fill. -/
theorem drawCrossProduct_draws {α : Type} [Field α] (sqrt : α → α) (st : GLState α) (p : Nat)
    (v1 v2 : Vec3 α) :
    (drawCrossProduct sqrt st p v1 v2).draws = st.draws ++
      [⟨Prim.lines, [some ⟨0, 0, 1 / 100⟩, some ⟨v1.x, v1.y, v1.z + 1 / 100⟩],
          ⟨1, 0, 0⟩, st.alpha, ⟨0, 0, 1 / 100⟩⟩,
       ⟨Prim.lines, [some ⟨0, 0, 1 / 100⟩, some ⟨v2.x, v2.y, v2.z + 1 / 100⟩],
          ⟨0, 1, 0⟩, st.alpha, ⟨0, 0, 1 / 100⟩⟩,
       ⟨Prim.lines, [some ⟨0, 0, 1 / 100⟩,
          some ⟨(cross v1 v2).x, (cross v1 v2).y, (cross v1 v2).z + 1 / 100⟩],
          ⟨0, 0, 1⟩, st.alpha, ⟨0, 0, 1 / 100⟩⟩,
       ⟨Prim.triangles,
          [some ⟨0, 0, 0⟩, some v1, some v2, some v1, some v2, some (vadd v1 v2)],
          ⟨1 / 2, 1 / 2, 1 / 2⟩, 3 / 10, ⟨0, 0, 0⟩⟩] := by
  simp [drawCrossProduct, drawVector_state, genName, bindVertexArray, bufferData, elementData,
    drawElements, issue, boundVertices, deleteVertexArray, toVertices, parallelogramVertices,
    indices, print, vadd]

/-- The console line of `drawCrossProduct`. -/
theorem drawCrossProduct_console {α : Type} [Field α] (sqrt : α → α) (st : GLState α) (p : Nat)
    (v1 v2 : Vec3 α) :
    (drawCrossProduct sqrt st p v1 v2).console = st.console ++
      [Output.value "Area of the parallelogram (cross product magnitude): "
        (length sqrt (cross v1 v2))] := by
  simp [drawCrossProduct, drawVector_state, genName, bindVertexArray, bufferData, elementData,
    drawElements, issue, deleteVertexArray, print]

/-- Lagrange identity for the cross product of the program. -/
theorem dot_cross_self (a b : Vec3 ℝ) :
    dot (cross a b) (cross a b) = dot a a * dot b b - dot a b * dot a b := by
  simp only [dot, cross]; ring

/-- A vector dotted with itself is not negative. -/
theorem dot_self_nonneg (a : Vec3 ℝ) : 0 ≤ dot a a := by
  simp only [dot]; nlinarith [mul_self_nonneg a.x, mul_self_nonneg a.y, mul_self_nonneg a.z]

/-- The length squared is the dot product of the vector with itself. -/
theorem length_sq (a : Vec3 ℝ) : length Real.sqrt a ^ 2 = dot a a := by
  simp only [length]; exact Real.sq_sqrt (dot_self_nonneg a)

/-! ## The grid -/

/-- A `for` loop whose condition holds for the first `m` values of the counter and fails
for the next one runs its body `m` times and then stops, given fuel for `m + 1` tests. -/
theorem forFloat_unroll {α β : Type} [LinearOrderedField α] (limit step : α)
    (body : α → β → β) :
    ∀ (m fuel : Nat) (i : α) (acc : β) (n : Nat),
      (∀ j : Nat, j < m → i + j * step ≤ limit) → ¬ (i + m * step ≤ limit) →
      forFloat limit step body (fuel + m + 1) i acc n =
        some ((List.range m).foldl (fun (a : β) (j : Nat) => body (i + (j : α) * step) a) acc,
          n + m) := by
  intro m
  induction m with
  | zero =>
    intro fuel i acc n _ hstop
    have hstop0 : ¬ (i ≤ limit) := by simpa using hstop
    simp [forFloat, hstop0]
  | succ m ih =>
    intro fuel i acc n hle hstop
    have h0 : i ≤ limit := by simpa using hle 0 (Nat.succ_pos m)
    have hfuel : fuel + (m + 1) + 1 = (fuel + m + 1) + 1 := by omega
    rw [hfuel, forFloat, if_pos h0, ih fuel (i + step) (body i acc) (n + 1)]
    · rw [List.range_succ_eq_map, List.foldl_cons, List.foldl_map]
      have hf : (fun (a : β) (j : Nat) => body (i + step + (j : α) * step) a) =
          (fun (a : β) (j : Nat) => body (i + ((j + 1 : Nat) : α) * step) a) := by
        funext a j
        congr 1
        push_cast
        ring
      simp only [Nat.cast_zero, zero_mul, add_zero, Nat.succ_eq_add_one]
      rw [hf]
      congr 2
      omega
    · intro j hj
      have := hle (j + 1) (by omega)
      push_cast at this
      linarith
    · intro hcontra
      apply hstop
      push_cast
      linarith

/-- Appending a block per counter value is the concatenation of the blocks. -/
theorem foldl_append_range {β : Type} (g : Nat → List β) (m : Nat) (acc : List β) :
    (List.range m).foldl (fun a j => a ++ g j) acc = acc ++ (List.range m).flatMap g := by
  induction m with
  | zero => simp
  | succ m ih => simp [List.range_succ, List.foldl_append, ih, List.flatMap_append]

/-- Grouping a run of six-float blocks into vertices gives two vertices per block. -/
theorem toVertices_flatMap {α ι : Type} (L : List ι) (a b : ι → Vec3 α) (rest : List α) :
    toVertices (L.flatMap (fun j => [(a j).x, (a j).y, (a j).z, (b j).x, (b j).y, (b j).z])
        ++ rest) =
      L.flatMap (fun j => [a j, b j]) ++ toVertices rest := by
  induction L with
  | nil => simp
  | cons j L ih =>
    rw [List.flatMap_cons, List.flatMap_cons, List.append_assoc]
    show toVertices ((a j).x :: (a j).y :: (a j).z :: (b j).x :: (b j).y :: (b j).z :: _) = _
    rw [toVertices, toVertices]
    show _ :: _ :: toVertices
      ((L.flatMap fun j => [(a j).x, (a j).y, (a j).z, (b j).x, (b j).y, (b j).z]) ++ rest) = _
    rw [ih]
    rfl

/-- Pairing a run of two-vertex blocks into segments gives one segment per block. -/
theorem segments_flatMap {β ι : Type} (L : List ι) (a b : ι → β) (rest : List β) :
    segments (L.flatMap (fun j => [a j, b j]) ++ rest) =
      L.map (fun j => (a j, b j)) ++ segments rest := by
  induction L with
  | nil => simp
  | cons j L ih =>
    rw [List.flatMap_cons, List.map_cons, List.append_assoc]
    show segments (a j :: b j :: _) = _
    rw [segments]
    show _ :: segments ((L.flatMap fun j => [a j, b j]) ++ rest) = _
    rw [ih]
    rfl

/-- The two loops of `setupGrid` stop after 21 iterations each and leave the 252 floats
of the 42 grid lines. -/
theorem gridVertices_value {α : Type} [LinearOrderedField α] (extra : Nat) :
    (gridVertices (extra + 22) : Option (List α × Nat × Nat)) = some (gridData, 21, 21) := by
  have hle : ∀ j : Nat, j < 21 → (-10 : α) + j * 1 ≤ 10 := by
    intro j hj
    have : (j : α) ≤ 20 := by exact_mod_cast Nat.le_of_lt_succ hj
    linarith
  have hstop : ¬ ((-10 : α) + (21 : Nat) * 1 ≤ 10) := by norm_num
  have e := fun (body : α → List α → List α) (acc : List α) =>
    forFloat_unroll (10 : α) 1 body 21 extra (-10) acc 0 hle hstop
  simp only [gridVertices, gridData, e, zero_add]
  simp only [List.append_assoc, foldl_append_range]
  simp

/-- The vertices of the grid buffer, two per line. -/
theorem gridData_vertices {α : Type} [LinearOrderedField α] :
    toVertices (gridData : List α) =
      (List.range 21).flatMap
        (fun (k : Nat) => [(⟨-10, 0, -10 + (k : α) * 1⟩ : Vec3 α), ⟨10, 0, -10 + (k : α) * 1⟩]) ++
      (List.range 21).flatMap
        (fun (k : Nat) => [(⟨-10 + (k : α) * 1, 0, -10⟩ : Vec3 α), ⟨-10 + (k : α) * 1, 0, 10⟩]) := by
  have h1 := toVertices_flatMap (List.range 21)
    (fun (k : Nat) => (⟨-10, 0, -10 + (k : α) * 1⟩ : Vec3 α)) (fun (k : Nat) => ⟨10, 0, -10 + (k : α) * 1⟩)
  have h2 := toVertices_flatMap (List.range 21)
    (fun (k : Nat) => (⟨-10 + (k : α) * 1, 0, -10⟩ : Vec3 α)) (fun (k : Nat) => ⟨-10 + (k : α) * 1, 0, 10⟩) []
  simp only [List.append_nil] at h2
  simp only [gridData]
  rw [h1, h2]
  simp [toVertices]

/-- The segments of the grid buffer. -/
theorem gridData_segments {α : Type} [LinearOrderedField α] :
    segments (toVertices (gridData : List α)) =
      (List.range 21).map
        (fun (k : Nat) => ((⟨-10, 0, (k : α) - 10⟩ : Vec3 α), (⟨10, 0, (k : α) - 10⟩ : Vec3 α))) ++
      (List.range 21).map
        (fun (k : Nat) => ((⟨(k : α) - 10, 0, -10⟩ : Vec3 α), (⟨(k : α) - 10, 0, 10⟩ : Vec3 α))) := by
  have h1 := segments_flatMap (List.range 21)
    (fun (k : Nat) => (⟨-10, 0, -10 + (k : α) * 1⟩ : Vec3 α)) (fun (k : Nat) => ⟨10, 0, -10 + (k : α) * 1⟩)
  have h2 := segments_flatMap (List.range 21)
    (fun (k : Nat) => (⟨-10 + (k : α) * 1, 0, -10⟩ : Vec3 α)) (fun (k : Nat) => ⟨-10 + (k : α) * 1, 0, 10⟩) []
  simp only [List.append_nil] at h2
  rw [gridData_vertices, h1, h2]
  have e : ∀ k : Nat, (-10 : α) + (k : α) = (k : α) - 10 := by intro k; ring
  simp [e, segments]

/-- Sizes of the grid buffer: 252 floats, 84 vertices. -/
theorem gridData_sizes {α : Type} [LinearOrderedField α] :
    (gridData : List α).length = 252 ∧ (toVertices (gridData : List α)).length = 84 := by
  constructor
  · simp [gridData, List.length_flatMap, Function.comp_def]
  · rw [gridData_vertices]; simp [List.length_flatMap, Function.comp_def]

/-- The last four vertices of the grid buffer: the lines at abscissa 9 and 10. -/
theorem gridData_tail {α : Type} [LinearOrderedField α] :
    (toVertices (gridData : List α)).drop 80 =
      [⟨9, 0, -10⟩, ⟨9, 0, 10⟩, ⟨10, 0, -10⟩, ⟨10, 0, 10⟩] := by
  rw [gridData_vertices]
  simp [List.range_succ]
  norm_num

/-- A frame keeps the grid buffer in place. -/
theorem frame_gridIntact {α : Type} [Field α] (sqrt cos sin : α → α) (pi : α)
    (input : PanelInput α) (vs : List α) (app : App α) (h : GridIntact vs app) :
    GridIntact vs (frame sqrt cos sin pi input app) := by
  obtain ⟨ha, hn, hc⟩ := h
  have h1 : ¬ app.gridVAO = app.gl.nextName + 1 := by omega
  have h3 : ¬ app.gridVAO = app.gl.nextName + 2 + 1 := by omega
  have h5 : ¬ app.gridVAO = app.gl.nextName + 2 + 2 + 1 := by omega
  have h7 : ¬ app.gridVAO = app.gl.nextName + 2 + 2 + 2 + 1 := by omega
  simp only [frame, GridIntact]
  split_ifs <;>
    simp [drawDotProduct, drawCrossProduct, drawVector_state, drawGrid, genName,
      bindVertexArray, bufferData, elementData, drawArrays, drawElements, issue,
      deleteVertexArray, print, ha, hc, h1, h3, h5, h7] <;> omega

/-- Every frame of a session keeps the grid buffer in place. -/
theorem run_gridIntact {α : Type} [Field α] (sqrt cos sin : α → α) (pi : α) (vs : List α) :
    ∀ (inputs : List (PanelInput α)) (app : App α), GridIntact vs app →
      GridIntact vs (run sqrt cos sin pi inputs app) := by
  intro inputs
  induction inputs with
  | nil => intro app h; exact h
  | cons input rest ih =>
    intro app h
    exact ih _ (frame_gridIntact sqrt cos sin pi input vs app h)

/-- The first draw call of a frame is the grid draw: it fetches the first
`2 * gridLineCount = 80` vertices of the grid buffer with the grey colour and alpha 0.3. -/
theorem frame_grid_draw {α : Type} [Field α] (sqrt cos sin : α → α) (pi : α)
    (input : PanelInput α) (vs : List α) (app : App α) (h : GridIntact vs app) :
    (frame sqrt cos sin pi input app).gl.draws.head? =
      some ⟨Prim.lines, (List.range 80).map (fun k => (toVertices vs)[k]?),
        ⟨1 / 2, 1 / 2, 1 / 2⟩, 3 / 10, ⟨0, 0, 0⟩⟩ := by
  obtain ⟨ha, hn, hc⟩ := h
  simp only [frame]
  split_ifs <;>
    simp [drawDotProduct, drawCrossProduct, drawVector_state, drawGrid, genName,
      bindVertexArray, bufferData, elementData, drawArrays, drawElements, issue,
      deleteVertexArray, print, boundVertices, ha, hc]

/-- The state in which the render loop starts: `main` reaches the loop whatever the driver
answers, with the grid buffer in place and the default vectors, operation and camera. -/
theorem start_value {α : Type} [LinearOrderedField α] (d : Driver) (vsrc fsrc : String)
    (extra : Nat) :
    ∃ app0 : App α, start d vsrc fsrc (extra + 22) = some app0
      ∧ GridIntact gridData app0
      ∧ app0.gl.draws = []
      ∧ app0.cam = ⟨0, 0, 0, 0⟩ ∧ app0.operation = 0
      ∧ app0.v1 = ⟨1, 0, 0⟩ ∧ app0.v2 = ⟨0, 1, 0⟩ := by
  simp only [start, setupGrid, gridVertices_value]
  refine ⟨_, rfl, ?_, ?_, rfl, rfl, rfl, rfl⟩
  · simp [GridIntact, createShaderProgram, compileShader, genName, bindVertexArray, bufferData,
      GLState.fresh, print]
    split_ifs <;> simp
  · simp [createShaderProgram, compileShader, genName, bindVertexArray, bufferData,
      GLState.fresh, print]
    split_ifs <;> simp

/-- Fetching the first `n` vertices of a buffer that has at least `n`. -/
theorem fetch_first {β : Type} (l : List β) (n : Nat) (h : n ≤ l.length) :
    (List.range n).map (fun k => l[k]?) = (l.take n).map some := by
  apply List.ext_getElem
  · simp [h]
  · intro i h1 h2
    simp at h1 h2
    simp [List.getElem?_eq_getElem (show i < l.length by omega)]

/-! ## The dot-product view -/

/-- C1: for a non-zero `v2`, `drawDotProduct` is the three calls of `drawVector` with
`v1` in red, `v2` in green and, in blue, the vector `(v2 / |v2|) * (v1 . v2)` written out
in components, followed by the print of the dot product; the length it divides by is not
zero; and for `v1 = (1,0,0)`, `v2 = (0,1,0)` the dot product is 0 and the blue vector is
`(0,0,0)`. -/
theorem drawDotProduct_blue_vector (st : GLState ℝ) (p : Nat) (v1 v2 : Vec3 ℝ)
    (h : v2 ≠ ⟨0, 0, 0⟩) :
    drawDotProduct Real.sqrt st p v1 v2 =
      print
        (drawVector (drawVector (drawVector st p v1 ⟨1, 0, 0⟩) p v2 ⟨0, 1, 0⟩) p
          ⟨v2.x / Real.sqrt (v2.x * v2.x + v2.y * v2.y + v2.z * v2.z)
              * (v1.x * v2.x + v1.y * v2.y + v1.z * v2.z),
           v2.y / Real.sqrt (v2.x * v2.x + v2.y * v2.y + v2.z * v2.z)
              * (v1.x * v2.x + v1.y * v2.y + v1.z * v2.z),
           v2.z / Real.sqrt (v2.x * v2.x + v2.y * v2.y + v2.z * v2.z)
              * (v1.x * v2.x + v1.y * v2.y + v1.z * v2.z)⟩
          ⟨0, 0, 1⟩)
        (Output.value "Dot product: " (v1.x * v2.x + v1.y * v2.y + v1.z * v2.z))
    ∧ length Real.sqrt v2 ≠ 0
    ∧ dot (⟨1, 0, 0⟩ : Vec3 ℝ) ⟨0, 1, 0⟩ = 0
    ∧ drawDotProduct Real.sqrt st p ⟨1, 0, 0⟩ ⟨0, 1, 0⟩ =
        print
          (drawVector (drawVector (drawVector st p ⟨1, 0, 0⟩ ⟨1, 0, 0⟩) p ⟨0, 1, 0⟩ ⟨0, 1, 0⟩) p
            ⟨0, 0, 0⟩ ⟨0, 0, 1⟩)
          (Output.value "Dot product: " 0) := by
  refine ⟨?_, ?_, ?_, ?_⟩
  · simp only [drawDotProduct, dot, normalize, scale]
    congr 3 <;> ring
  · intro h0
    have hd : dot v2 v2 = 0 := by
      have := length_sq v2
      rw [h0] at this
      simpa using this.symm
    simp only [dot] at hd
    have hx : v2.x = 0 := by nlinarith [mul_self_nonneg v2.x, mul_self_nonneg v2.y, mul_self_nonneg v2.z]
    have hy : v2.y = 0 := by nlinarith [mul_self_nonneg v2.x, mul_self_nonneg v2.y, mul_self_nonneg v2.z]
    have hz : v2.z = 0 := by nlinarith [mul_self_nonneg v2.x, mul_self_nonneg v2.y, mul_self_nonneg v2.z]
    apply h
    cases v2
    simp_all
  · simp [dot]
  · simp [drawDotProduct, dot, normalize, scale]

/-- Witness for C1 at `v1 = (3,4,0)`, `v2 = (0,2,0)`: the hypothesis holds there and the
blue vector is `(0 / sqrt 4 * 8, 2 / sqrt 4 * 8, 0 / sqrt 4 * 8)`. -/
theorem drawDotProduct_blue_vector_witness :
    ((⟨0, 2, 0⟩ : Vec3 ℝ) ≠ ⟨0, 0, 0⟩) ∧
    drawDotProduct Real.sqrt GLState.fresh 0 ⟨3, 4, 0⟩ ⟨0, 2, 0⟩ =
      print
        (drawVector (drawVector (drawVector GLState.fresh 0 ⟨3, 4, 0⟩ ⟨1, 0, 0⟩) 0 ⟨0, 2, 0⟩
            ⟨0, 1, 0⟩) 0
          ⟨0 / Real.sqrt (0 * 0 + 2 * 2 + 0 * 0) * (3 * 0 + 4 * 2 + 0 * 0),
           2 / Real.sqrt (0 * 0 + 2 * 2 + 0 * 0) * (3 * 0 + 4 * 2 + 0 * 0),
           0 / Real.sqrt (0 * 0 + 2 * 2 + 0 * 0) * (3 * 0 + 4 * 2 + 0 * 0)⟩
          ⟨0, 0, 1⟩)
        (Output.value "Dot product: " (3 * 0 + 4 * 2 + 0 * 0)) ∧
    length Real.sqrt (⟨0, 2, 0⟩ : Vec3 ℝ) ≠ 0 :=
  ⟨by simp, (drawDotProduct_blue_vector GLState.fresh 0 ⟨3, 4, 0⟩ ⟨0, 2, 0⟩ (by simp)).1,
    (drawDotProduct_blue_vector GLState.fresh 0 ⟨3, 4, 0⟩ ⟨0, 2, 0⟩ (by simp)).2.1⟩

/-! ## The cross-product view -/

/-- C2: `drawCrossProduct` draws `v1` in red, `v2` in green and the cross product, written
out in components, in blue; its fill is one draw of exactly two triangles, with corners
`(origin, v1, v2)` and `(v1, v2, v1 + v2)`; the vertex buffer has four entries and every
index is below four; for `v1 = (1,0,0)`, `v2 = (0,1,0)` the cross product is `(0,0,1)`, its
length is 1 and the four corners are `(0,0,0)`, `(1,0,0)`, `(0,1,0)`, `(1,1,0)`. -/
theorem drawCrossProduct_geometry (st : GLState ℝ) (p : Nat) (v1 v2 : Vec3 ℝ) :
    (∃ fill : DrawCall ℝ,
      (drawCrossProduct Real.sqrt st p v1 v2).draws = st.draws ++
        [⟨Prim.lines, [some ⟨0, 0, 1 / 100⟩, some ⟨v1.x, v1.y, v1.z + 1 / 100⟩],
            ⟨1, 0, 0⟩, st.alpha, ⟨0, 0, 1 / 100⟩⟩,
         ⟨Prim.lines, [some ⟨0, 0, 1 / 100⟩, some ⟨v2.x, v2.y, v2.z + 1 / 100⟩],
            ⟨0, 1, 0⟩, st.alpha, ⟨0, 0, 1 / 100⟩⟩,
         ⟨Prim.lines, [some ⟨0, 0, 1 / 100⟩,
            some ⟨v1.y * v2.z - v1.z * v2.y, v1.z * v2.x - v1.x * v2.z,
                  v1.x * v2.y - v1.y * v2.x + 1 / 100⟩],
            ⟨0, 0, 1⟩, st.alpha, ⟨0, 0, 1 / 100⟩⟩,
         fill]
      ∧ fill.mode = Prim.triangles
      ∧ triangles fill.fetched =
          [(some ⟨0, 0, 0⟩, some v1, some v2),
           (some v1, some v2, some ⟨v1.x + v2.x, v1.y + v2.y, v1.z + v2.z⟩)])
    ∧ cross v1 v2 =
        ⟨v1.y * v2.z - v1.z * v2.y, v1.z * v2.x - v1.x * v2.z, v1.x * v2.y - v1.y * v2.x⟩
    ∧ (toVertices (parallelogramVertices v1 v2)).length = 4
    ∧ indices.all (fun i => decide (i < 4)) = true
    ∧ cross (⟨1, 0, 0⟩ : Vec3 ℝ) ⟨0, 1, 0⟩ = ⟨0, 0, 1⟩
    ∧ length Real.sqrt (cross (⟨1, 0, 0⟩ : Vec3 ℝ) ⟨0, 1, 0⟩) = 1
    ∧ toVertices (parallelogramVertices (⟨1, 0, 0⟩ : Vec3 ℝ) ⟨0, 1, 0⟩) =
        [⟨0, 0, 0⟩, ⟨1, 0, 0⟩, ⟨0, 1, 0⟩, ⟨1, 1, 0⟩] := by
  have hc : cross v1 v2 =
      ⟨v1.y * v2.z - v1.z * v2.y, v1.z * v2.x - v1.x * v2.z, v1.x * v2.y - v1.y * v2.x⟩ := by
    simp only [cross, Vec3.mk.injEq]
    refine ⟨?_, ?_, ?_⟩ <;> ring
  refine ⟨⟨⟨Prim.triangles,
      [some ⟨0, 0, 0⟩, some v1, some v2, some v1, some v2, some (vadd v1 v2)],
      ⟨1 / 2, 1 / 2, 1 / 2⟩, 3 / 10, ⟨0, 0, 0⟩⟩, ?_, rfl, ?_⟩, hc, ?_, ?_, ?_, ?_, ?_⟩
  · rw [drawCrossProduct_draws, hc]
  · simp [triangles, vadd]
  · simp [toVertices, parallelogramVertices]
  · simp [indices]
  · simp [cross]
  · simp [length, cross, dot]
  · simp [toVertices, parallelogramVertices]

/-- Each of the two triangles `(origin, v1, v2)` and `(v1, v2, v1 + v2)` has half the
length of the cross product as its area, so a fill that fetches them covers that length. -/
theorem fillArea_two_triangles (v1 v2 c m : Vec3 ℝ) (a : ℝ) :
    triangleArea Real.sqrt ⟨0, 0, 0⟩ v1 v2 = length Real.sqrt (cross v1 v2) / 2
    ∧ triangleArea Real.sqrt v1 v2 (vadd v1 v2) = length Real.sqrt (cross v1 v2) / 2
    ∧ fillArea Real.sqrt ⟨Prim.triangles,
        [some ⟨0, 0, 0⟩, some v1, some v2, some v1, some v2, some (vadd v1 v2)], c, a, m⟩ =
        some (length Real.sqrt (cross v1 v2)) := by
  have t1 : triangleArea Real.sqrt ⟨0, 0, 0⟩ v1 v2 = length Real.sqrt (cross v1 v2) / 2 := by
    simp only [triangleArea, length, dot_cross_self]
    simp [vsub]
  have t2 : triangleArea Real.sqrt v1 v2 (vadd v1 v2) = length Real.sqrt (cross v1 v2) / 2 := by
    simp only [triangleArea, length]
    congr 2
    simp only [dot, cross, vsub, vadd]
    ring
  refine ⟨t1, t2, ?_⟩
  simp only [fillArea, triangles, List.foldl, if_true, t1, t2]
  simp

/-- C6: the fill `drawCrossProduct` issues fetches, through the index buffer, the corners
origin, `v1`, `v2` and `v1 + v2` of the vertex buffer as the triangles `(origin, v1, v2)`
and `(v1, v2, v1 + v2)`; the value it prints is the length of the cross product; that
value is the area this fill covers (the sum of the areas of its two triangles) and the
area of the parallelogram with these corners; its square is `|v1|^2 |v2|^2 - (v1 . v2)^2`;
and the cross product is perpendicular to both inputs. -/
theorem cross_length_is_parallelogram_area (st : GLState ℝ) (p : Nat) (v1 v2 : Vec3 ℝ) :
    ∃ (fill : DrawCall ℝ) (reported : ℝ),
      (drawCrossProduct Real.sqrt st p v1 v2).draws.getLast? = some fill
      ∧ (drawCrossProduct Real.sqrt st p v1 v2).console = st.console ++
          [Output.value "Area of the parallelogram (cross product magnitude): " reported]
      ∧ toVertices (parallelogramVertices v1 v2) = [⟨0, 0, 0⟩, v1, v2, vadd v1 v2]
      ∧ triangles fill.fetched =
          [(some ⟨0, 0, 0⟩, some v1, some v2), (some v1, some v2, some (vadd v1 v2))]
      ∧ fillArea Real.sqrt fill = some reported
      ∧ reported = length Real.sqrt (cross v1 v2)
      ∧ reported = parallelogramArea Real.sqrt ⟨0, 0, 0⟩ v1 v2
      ∧ reported = triangleArea Real.sqrt ⟨0, 0, 0⟩ v1 v2
          + triangleArea Real.sqrt v1 v2 (vadd v1 v2)
      ∧ reported ^ 2 = length Real.sqrt v1 ^ 2 * length Real.sqrt v2 ^ 2 - dot v1 v2 ^ 2
      ∧ dot (cross v1 v2) v1 = 0
      ∧ dot (cross v1 v2) v2 = 0 := by
  obtain ⟨t1, t2, harea⟩ := fillArea_two_triangles v1 v2 ⟨1 / 2, 1 / 2, 1 / 2⟩ ⟨0, 0, 0⟩ (3 / 10)
  have hsum : length Real.sqrt (cross v1 v2) =
      triangleArea Real.sqrt ⟨0, 0, 0⟩ v1 v2 + triangleArea Real.sqrt v1 v2 (vadd v1 v2) := by
    rw [t1, t2]; ring
  refine ⟨⟨Prim.triangles,
      [some ⟨0, 0, 0⟩, some v1, some v2, some v1, some v2, some (vadd v1 v2)],
      ⟨1 / 2, 1 / 2, 1 / 2⟩, 3 / 10, ⟨0, 0, 0⟩⟩, length Real.sqrt (cross v1 v2),
      ?_, drawCrossProduct_console _ _ _ _ _, ?_, ?_, ?_, rfl, ?_, hsum, ?_, ?_, ?_⟩
  · rw [drawCrossProduct_draws]; simp
  · simp [toVertices, parallelogramVertices, vadd]
  · simp [triangles]
  · exact harea
  · simp only [length, parallelogramArea, dot_cross_self]
    simp [vsub]
  · rw [length_sq, length_sq, length_sq, dot_cross_self]; ring
  · simp only [dot, cross]; ring
  · simp only [dot, cross]; ring

/-- C7, in exact real arithmetic: for parallel inputs `v1 = v`, `v2 = k * v` the cross
product is the zero vector, the value printed is 0, the parallelogram has area 0 and so
has the fill that is drawn, and every corner of the vertex buffer and every corner the
fill fetches is a multiple of `v` (0, 1, `k` and `1 + k` times `v`), so the four corners
lie on one line; in particular for `v1 = v2 = (2,0,0)`. -/
theorem parallel_inputs_degenerate (st : GLState ℝ) (p : Nat) (v : Vec3 ℝ) (k : ℝ) :
    cross v (scale v k) = ⟨0, 0, 0⟩
    ∧ (drawCrossProduct Real.sqrt st p v (scale v k)).console = st.console ++
        [Output.value "Area of the parallelogram (cross product magnitude): " 0]
    ∧ parallelogramArea Real.sqrt ⟨0, 0, 0⟩ v (scale v k) = 0
    ∧ (∃ fill : DrawCall ℝ,
        (drawCrossProduct Real.sqrt st p v (scale v k)).draws.getLast? = some fill
        ∧ fill.mode = Prim.triangles
        ∧ fill.fetched =
            [some (scale v 0), some (scale v 1), some (scale v k),
             some (scale v 1), some (scale v k), some (scale v (1 + k))]
        ∧ fillArea Real.sqrt fill = some 0)
    ∧ toVertices (parallelogramVertices v (scale v k)) =
        [scale v 0, scale v 1, scale v k, scale v (1 + k)]
    ∧ cross (⟨2, 0, 0⟩ : Vec3 ℝ) ⟨2, 0, 0⟩ = ⟨0, 0, 0⟩
    ∧ length Real.sqrt (cross (⟨2, 0, 0⟩ : Vec3 ℝ) ⟨2, 0, 0⟩) = 0
    ∧ parallelogramArea Real.sqrt (⟨0, 0, 0⟩ : Vec3 ℝ) ⟨2, 0, 0⟩ ⟨2, 0, 0⟩ = 0 := by
  have hc : cross v (scale v k) = ⟨0, 0, 0⟩ := by
    simp only [cross, scale, Vec3.mk.injEq]
    refine ⟨?_, ?_, ?_⟩ <;> ring
  have hl : length Real.sqrt (cross v (scale v k)) = 0 := by
    rw [hc]; simp [length, dot]
  have ha : ∀ a b : Vec3 ℝ, parallelogramArea Real.sqrt ⟨0, 0, 0⟩ a b =
      length Real.sqrt (cross a b) := by
    intro a b
    simp only [length, parallelogramArea, dot_cross_self]
    simp [vsub]
  have h0 : (⟨0, 0, 0⟩ : Vec3 ℝ) = scale v 0 := by simp [scale]
  have h1 : v = scale v 1 := by simp [scale]
  have h2 : vadd v (scale v k) = scale v (1 + k) := by
    simp only [vadd, scale, Vec3.mk.injEq]
    refine ⟨?_, ?_, ?_⟩ <;> ring
  refine ⟨hc, ?_, ?_, ?_, ?_, ?_, ?_, ?_⟩
  · rw [drawCrossProduct_console, hl]
  · rw [ha, hl]
  · refine ⟨⟨Prim.triangles,
      [some ⟨0, 0, 0⟩, some v, some (scale v k), some v, some (scale v k),
        some (vadd v (scale v k))],
      ⟨1 / 2, 1 / 2, 1 / 2⟩, 3 / 10, ⟨0, 0, 0⟩⟩, ?_, rfl, ?_, ?_⟩
    · rw [drawCrossProduct_draws]; simp
    · rw [h2, h0]
      conv_lhs => rw [h1]
      simp [scale]
    · rw [(fillArea_two_triangles v (scale v k) _ _ _).2.2, hl]
  · have hv : toVertices (parallelogramVertices v (scale v k)) =
        [⟨0, 0, 0⟩, v, scale v k, vadd v (scale v k)] := by
      simp [toVertices, parallelogramVertices, vadd]
    rw [hv, h2, h0]
    conv_lhs => rw [h1]
    simp [scale]
  · simp [cross]
  · simp [length, cross, dot]
  · simp [parallelogramArea, vsub, dot]

/-- C7 as stated fails in the arithmetic of the code.  With `v1 = v2 = (1e20, 1e20, 0)`
(`k = 1`; the `float` nearest to `1e20` is 100000002004087734272) both products in the
third component of the cross product overflow to infinity and their difference is
not-a-number, so the cross vector is not `(0,0,0)`.  With `v = (1, 3, 0)` and `k = 2 ^ 24`,
`v2 = k * v = (16777216, 50331648, 0)` is exact and the cross vector is `(0,0,0)`, but the
fourth corner `v1 + v2` of the vertex buffer is rounded to `(16777216, 50331652, 0)`, which
is no multiple of `v`: the four corners are not on one line. -/
theorem parallel_inputs_binary32 :
    vecToRat ⟨F32.ofInt (10 ^ 20), F32.ofInt (10 ^ 20), F32.ofInt 0⟩ =
        some ⟨100000002004087734272, 100000002004087734272, 0⟩
    ∧ cross (⟨F32.ofInt (10 ^ 20), F32.ofInt (10 ^ 20), F32.ofInt 0⟩ : Vec3 F32)
          ⟨F32.ofInt (10 ^ 20), F32.ofInt (10 ^ 20), F32.ofInt 0⟩ =
        ⟨0, 0, F32.nan⟩
    ∧ cross (⟨F32.ofInt (10 ^ 20), F32.ofInt (10 ^ 20), F32.ofInt 0⟩ : Vec3 F32)
          ⟨F32.ofInt (10 ^ 20), F32.ofInt (10 ^ 20), F32.ofInt 0⟩ ≠
        ⟨0, 0, 0⟩
    ∧ vecToRat ⟨F32.ofInt 1, F32.ofInt 3, F32.ofInt 0⟩ = some ⟨1, 3, 0⟩
    ∧ (F32.ofInt (2 ^ 24)).toRat = some (2 ^ 24)
    ∧ vecToRat (scale (⟨F32.ofInt 1, F32.ofInt 3, F32.ofInt 0⟩ : Vec3 F32) (F32.ofInt (2 ^ 24))) =
        some (scale ⟨1, 3, 0⟩ (2 ^ 24))
    ∧ cross (⟨F32.ofInt 1, F32.ofInt 3, F32.ofInt 0⟩ : Vec3 F32)
          (scale ⟨F32.ofInt 1, F32.ofInt 3, F32.ofInt 0⟩ (F32.ofInt (2 ^ 24))) =
        ⟨0, 0, 0⟩
    ∧ (toVertices (parallelogramVertices (⟨F32.ofInt 1, F32.ofInt 3, F32.ofInt 0⟩ : Vec3 F32)
          (scale ⟨F32.ofInt 1, F32.ofInt 3, F32.ofInt 0⟩ (F32.ofInt (2 ^ 24))))).map vecToRat =
        [some ⟨0, 0, 0⟩, some ⟨1, 3, 0⟩, some ⟨16777216, 50331648, 0⟩,
         some ⟨16777216, 50331652, 0⟩]
    ∧ ¬ ∃ t : ℚ, (⟨16777216, 50331652, 0⟩ : Vec3 ℚ) = scale ⟨1, 3, 0⟩ t := by
  have big : F32.ofInt (10 ^ 20) = F32.fin 11368684 43 := by decide
  have h0 : F32.ofInt 0 = F32.fin 0 (-149) := by decide
  have h1 : F32.ofInt 1 = F32.fin 8388608 (-23) := by decide
  have h3 : F32.ofInt 3 = F32.fin 12582912 (-22) := by decide
  have hk : F32.ofInt (2 ^ 24) = F32.fin 8388608 1 := by decide
  have hs : scale (⟨F32.ofInt 1, F32.ofInt 3, F32.ofInt 0⟩ : Vec3 F32) (F32.ofInt (2 ^ 24)) =
      ⟨F32.fin 8388608 1, F32.fin 12582912 2, F32.fin 0 (-149)⟩ := by decide
  have hv : toVertices (parallelogramVertices (⟨F32.ofInt 1, F32.ofInt 3, F32.ofInt 0⟩ : Vec3 F32)
      (scale ⟨F32.ofInt 1, F32.ofInt 3, F32.ofInt 0⟩ (F32.ofInt (2 ^ 24)))) =
      [⟨F32.fin 0 (-149), F32.fin 0 (-149), F32.fin 0 (-149)⟩,
       ⟨F32.fin 8388608 (-23), F32.fin 12582912 (-22), F32.fin 0 (-149)⟩,
       ⟨F32.fin 8388608 1, F32.fin 12582912 2, F32.fin 0 (-149)⟩,
       ⟨F32.fin 8388608 1, F32.fin 12582913 2, F32.fin 0 (-149)⟩] := by decide
  refine ⟨?_, by decide, by decide, ?_, ?_, ?_, by decide, ?_, ?_⟩
  · rw [big, h0]; norm_num [vecToRat, F32.toRat]
  · rw [h1, h3, h0]; norm_num [vecToRat, F32.toRat]
  · rw [hk]; norm_num [F32.toRat]
  · rw [hs]; norm_num [vecToRat, F32.toRat, scale]
  · rw [hv]; norm_num [vecToRat, F32.toRat]
  · rintro ⟨t, ht⟩
    simp only [scale, Vec3.mk.injEq] at ht
    obtain ⟨hx, hy, -⟩ := ht
    linarith

/-! ## The camera -/

/-- The `view` uniform after a frame is the one computed at the start of the frame. -/
theorem frame_view {α : Type} [Field α] (sqrt cos sin : α → α) (pi : α) (input : PanelInput α)
    (app : App α) :
    (frame sqrt cos sin pi input app).gl.view =
      lookAt sqrt (cameraEye cos sin pi app.cam) (cameraTarget app.cam) ⟨0, 1, 0⟩ := by
  simp only [frame]
  split_ifs <;>
    simp [drawDotProduct, drawCrossProduct, drawVector_state, drawGrid, genName, bindVertexArray,
      bufferData, elementData, drawArrays, drawElements, issue, deleteVertexArray, print]

/-- C3, as the code has it: the eye position passed to `lookAt` is five times the unit
vector of the two orbit angles (degrees converted to radians), with no pan offset; the
target is `(panX, panY, 0)`; so the eye lies at distance exactly 5 from the origin and is
the specification's eye position for zero pan; this is the eye the frame hands to
`lookAt`. -/
theorem eye_on_sphere_around_origin (cam : Globals ℝ) (input : PanelInput ℝ) (app : App ℝ) :
    cameraEye Real.cos Real.sin Real.pi cam =
      scale ⟨Real.cos (cam.panAngleX * (Real.pi / 180)) * Real.cos (cam.panAngleY * (Real.pi / 180)),
             Real.sin (cam.panAngleY * (Real.pi / 180)),
             Real.sin (cam.panAngleX * (Real.pi / 180)) * Real.cos (cam.panAngleY * (Real.pi / 180))⟩ 5
    ∧ cameraTarget cam = ⟨cam.panX, cam.panY, 0⟩
    ∧ length Real.sqrt (vsub (cameraEye Real.cos Real.sin Real.pi cam) ⟨0, 0, 0⟩) = 5
    ∧ cameraEye Real.cos Real.sin Real.pi cam =
        specEye Real.cos Real.sin Real.pi { cam with panX := 0, panY := 0 }
    ∧ (frame Real.sqrt Real.cos Real.sin Real.pi input app).gl.view =
        lookAt Real.sqrt (cameraEye Real.cos Real.sin Real.pi app.cam)
          (cameraTarget app.cam) ⟨0, 1, 0⟩ := by
  refine ⟨?_, rfl, ?_, ?_, frame_view _ _ _ _ _ _⟩
  · simp only [cameraEye, radians, scale, Vec3.mk.injEq]
    refine ⟨?_, ?_, ?_⟩ <;> ring
  · simp only [length, cameraEye, radians, vsub, dot, sub_zero]
    have hx := Real.sin_sq_add_cos_sq (cam.panAngleX * (Real.pi / 180))
    have hy := Real.sin_sq_add_cos_sq (cam.panAngleY * (Real.pi / 180))
    have : (5 * Real.cos (cam.panAngleX * (Real.pi / 180)) * Real.cos (cam.panAngleY * (Real.pi / 180)))
          * (5 * Real.cos (cam.panAngleX * (Real.pi / 180)) * Real.cos (cam.panAngleY * (Real.pi / 180)))
        + 5 * Real.sin (cam.panAngleY * (Real.pi / 180)) * (5 * Real.sin (cam.panAngleY * (Real.pi / 180)))
        + (5 * Real.sin (cam.panAngleX * (Real.pi / 180)) * Real.cos (cam.panAngleY * (Real.pi / 180)))
          * (5 * Real.sin (cam.panAngleX * (Real.pi / 180)) * Real.cos (cam.panAngleY * (Real.pi / 180)))
        = 5 ^ 2 := by
      have e : Real.cos (cam.panAngleX * (Real.pi / 180)) ^ 2
          = 1 - Real.sin (cam.panAngleX * (Real.pi / 180)) ^ 2 := by linarith
      have e2 : Real.cos (cam.panAngleY * (Real.pi / 180)) ^ 2
          = 1 - Real.sin (cam.panAngleY * (Real.pi / 180)) ^ 2 := by linarith
      nlinarith [e, e2]
    rw [this]
    exact Real.sqrt_sq (by norm_num)
  · simp only [cameraEye, specEye, cameraTarget, radians, vadd, scale, Vec3.mk.injEq]
    refine ⟨?_, ?_, ?_⟩ <;> ring

/-- C3 as stated fails: with `panX = 1` and all other camera values 0 the eye is
`(5,0,0)` while the specification's formula gives `(6,0,0)`, and the eye is at distance 4,
not 5, from the target `(1,0,0)`. -/
theorem eye_not_around_target :
    cameraEye Real.cos Real.sin Real.pi (⟨1, 0, 0, 0⟩ : Globals ℝ) = ⟨5, 0, 0⟩
    ∧ specEye Real.cos Real.sin Real.pi (⟨1, 0, 0, 0⟩ : Globals ℝ) = ⟨6, 0, 0⟩
    ∧ cameraEye Real.cos Real.sin Real.pi (⟨1, 0, 0, 0⟩ : Globals ℝ) ≠
        specEye Real.cos Real.sin Real.pi ⟨1, 0, 0, 0⟩
    ∧ length Real.sqrt (vsub (cameraEye Real.cos Real.sin Real.pi (⟨1, 0, 0, 0⟩ : Globals ℝ))
        (cameraTarget ⟨1, 0, 0, 0⟩)) = 4
    ∧ length Real.sqrt (vsub (cameraEye Real.cos Real.sin Real.pi (⟨1, 0, 0, 0⟩ : Globals ℝ))
        (cameraTarget ⟨1, 0, 0, 0⟩)) ≠ 5 := by
  have h1 : cameraEye Real.cos Real.sin Real.pi (⟨1, 0, 0, 0⟩ : Globals ℝ) = ⟨5, 0, 0⟩ := by
    simp [cameraEye, radians]
  have h2 : specEye Real.cos Real.sin Real.pi (⟨1, 0, 0, 0⟩ : Globals ℝ) = ⟨6, 0, 0⟩ := by
    simp [specEye, cameraTarget, radians, vadd, scale]; norm_num
  have h3 : length Real.sqrt (vsub (cameraEye Real.cos Real.sin Real.pi (⟨1, 0, 0, 0⟩ : Globals ℝ))
      (cameraTarget ⟨1, 0, 0, 0⟩)) = 4 := by
    rw [h1]
    simp only [length, cameraTarget, vsub, dot]
    rw [show ((5 : ℝ) - 1) * (5 - 1) + (0 - 0) * (0 - 0) + (0 - 0) * (0 - 0) = 4 ^ 2 by norm_num]
    exact Real.sqrt_sq (by norm_num)
  refine ⟨h1, h2, ?_, h3, ?_⟩
  · rw [h1, h2]; simp
  · rw [h3]; norm_num

/-! ## The grid in the render loop -/

/-- C5: given fuel for 22 tests of each loop condition, `setupGrid` returns; both loops run
21 times; the vector holds 252 floats, that is 84 vertices, that is 42 segments: for each
`i = k - 10`, `k = 0..20`, the segment from `(-10, 0, i)` to `(10, 0, i)` and then for each
such `i` the segment from `(i, 0, -10)` to `(i, 0, 10)`; the buffer goes into a new vertex
array; the result is the same for any two values of the camera variables, and the buffer
is still the same after any session, whatever pan, angles and zoom the panel sets. -/
theorem setupGrid_builds_grid (extra : Nat) (cam cam2 : Globals ℝ) (st : GLState ℝ)
    (d : Driver) (vsrc fsrc : String) (inputs : List (PanelInput ℝ))
    (sqrt cos sin : ℝ → ℝ) (pi : ℝ) :
    ∃ vs : List ℝ,
      gridVertices (extra + 22) = some (vs, 21, 21)
      ∧ vs.length = 252
      ∧ (toVertices vs).length = 84
      ∧ (segments (toVertices vs)).length = 42
      ∧ segments (toVertices vs) =
          (List.range 21).map
            (fun (k : Nat) => ((⟨-10, 0, (k : ℝ) - 10⟩ : Vec3 ℝ), (⟨10, 0, (k : ℝ) - 10⟩ : Vec3 ℝ)))
          ++ (List.range 21).map
            (fun (k : Nat) => ((⟨(k : ℝ) - 10, 0, -10⟩ : Vec3 ℝ), (⟨(k : ℝ) - 10, 0, 10⟩ : Vec3 ℝ)))
      ∧ setupGrid (extra + 22) cam st =
          some (st.nextName + 1,
            { st with
              nextName := st.nextName + 2
              arrays := (st.nextName + 1, vs) ::
                st.arrays.filter (fun e => e.1 != st.nextName + 1)
              bound := 0 })
      ∧ setupGrid (extra + 22) cam st = setupGrid (extra + 22) cam2 st
      ∧ (∃ app0 : App ℝ, start d vsrc fsrc (extra + 22) = some app0
          ∧ (run sqrt cos sin pi inputs app0).gl.arrays = [(app0.gridVAO, vs)]
          ∧ (run sqrt cos sin pi inputs app0).gridVAO = app0.gridVAO) := by
  refine ⟨gridData, gridVertices_value extra, gridData_sizes.1, gridData_sizes.2, ?_,
    gridData_segments, ?_, rfl, ?_⟩
  · rw [gridData_segments]; simp
  · simp [setupGrid, gridVertices_value, genName, bindVertexArray, bufferData]
  · obtain ⟨app0, h0, hi, -⟩ := start_value (α := ℝ) d vsrc fsrc extra
    refine ⟨app0, h0, ?_, ?_⟩
    · have hr := run_gridIntact sqrt cos sin pi gridData inputs app0 hi
      have hg : ∀ (l : List (PanelInput ℝ)) (a : App ℝ),
          (run sqrt cos sin pi l a).gridVAO = a.gridVAO := by
        intro l
        induction l with
        | nil => intro a; rfl
        | cons x l ih => intro a; rw [run, ih]; simp only [frame]
      rw [hr.1, hg]
    · have hg : ∀ (l : List (PanelInput ℝ)) (a : App ℝ),
          (run sqrt cos sin pi l a).gridVAO = a.gridVAO := by
        intro l
        induction l with
        | nil => intro a; rfl
        | cons x l ih => intro a; rw [run, ih]; simp only [frame]
      exact hg _ _

/-- C4 on the code: in every frame of every session the grid draw passes the count
`2 * 40 = 80` and so fetches the first 80 of the 84 vertices that `setupGrid` uploaded,
that is 40 of the 42 lines; the four vertices of the lines at abscissa 9 and 10 are in the
buffer and are not drawn. -/
theorem grid_draw_skips_two_lines (d : Driver) (vsrc fsrc : String) (extra : Nat)
    (inputs : List (PanelInput ℝ)) (input : PanelInput ℝ) (sqrt cos sin : ℝ → ℝ) (pi : ℝ) :
    ∃ (app0 : App ℝ) (vs : List ℝ) (grid : DrawCall ℝ),
      start d vsrc fsrc (extra + 22) = some app0
      ∧ gridVertices (extra + 22) = some (vs, 21, 21)
      ∧ (run sqrt cos sin pi inputs app0).gridLineCount * 2 = 80
      ∧ (frame sqrt cos sin pi input (run sqrt cos sin pi inputs app0)).gl.draws.head? =
          some grid
      ∧ grid.mode = Prim.lines
      ∧ grid.fetched = ((toVertices vs).take 80).map some
      ∧ grid.fetched.length = 80
      ∧ (segments grid.fetched).length = 40
      ∧ (toVertices vs).length = 84
      ∧ (segments (toVertices vs)).length = 42
      ∧ (toVertices vs).drop 80 = [⟨9, 0, -10⟩, ⟨9, 0, 10⟩, ⟨10, 0, -10⟩, ⟨10, 0, 10⟩] := by
  obtain ⟨app0, h0, hi, -⟩ := start_value (α := ℝ) d vsrc fsrc extra
  have hr := run_gridIntact sqrt cos sin pi gridData inputs app0 hi
  have hd := frame_grid_draw sqrt cos sin pi input gridData _ hr
  have hlen : 80 ≤ (toVertices (gridData : List ℝ)).length := by
    rw [gridData_sizes.2]; decide
  rw [fetch_first _ 80 hlen] at hd
  have hseg : ∀ (n : Nat) (l : List (Option (Vec3 ℝ))), l.length = 2 * n →
      (segments l).length = n := by
    intro n
    induction n with
    | zero => intro l hl; simp at hl; subst hl; rfl
    | succ n ih =>
      intro l hl
      match l, hl with
      | a :: b :: rest, hl =>
        simp only [segments, List.length_cons]
        rw [ih rest (by simp only [List.length_cons] at hl; omega)]
  refine ⟨app0, gridData, _, h0, gridVertices_value extra, ?_, hd, rfl, rfl, ?_, ?_,
    gridData_sizes.2, ?_, gridData_tail⟩
  · rw [hr.2.2]
  · simp [gridData_sizes.2]
  · apply hseg
    simp [gridData_sizes.2]
  · rw [gridData_segments]; simp

/-! ## The alpha uniform and the shader handles -/

/-- C9 on the code: in a frame with the dot product selected the four draw calls are the
grid and the three lines, in grey, red, green and blue, and the alpha uniform in effect at
each of them, the three lines included, is the 0.3 that `drawGrid` set, not 1. -/
theorem dot_frame_lines_alpha (sqrt cos sin : ℝ → ℝ) (pi : ℝ) (input : PanelInput ℝ)
    (app : App ℝ) :
    (frame sqrt cos sin pi { input with operation := 0 } app).gl.draws.map
        (fun c => (c.mode, c.color, c.alpha)) =
      [(Prim.lines, ⟨1 / 2, 1 / 2, 1 / 2⟩, 3 / 10),
       (Prim.lines, ⟨1, 0, 0⟩, 3 / 10),
       (Prim.lines, ⟨0, 1, 0⟩, 3 / 10),
       (Prim.lines, ⟨0, 0, 1⟩, 3 / 10)]
    ∧ (3 / 10 : ℝ) ≠ 1 := by
  constructor
  · simp [frame, drawDotProduct, drawVector_state, drawGrid, bindVertexArray, drawArrays, issue,
      print]
  · norm_num

/-- C8 on the code: when the program does not link, `createShaderProgram` prints the link
diagnostic and returns the name of the program object, here 3, not 0; when a shader does
not compile, `compileShader` prints the compile diagnostic and returns 0. -/
theorem link_failure_returns_program :
    (createShaderProgram linkFailure (GLState.fresh : GLState ℚ) "v" "f").1 = 3
    ∧ (createShaderProgram linkFailure (GLState.fresh : GLState ℚ) "v" "f").2.console =
        [Output.text "ERROR::SHADER::PROGRAM::LINKING_FAILED\nerror: linking failed"]
    ∧ (compileShader compileFailure (GLState.fresh : GLState ℚ) ShaderType.vertex "v").1 = 0
    ∧ (compileShader compileFailure (GLState.fresh : GLState ℚ) ShaderType.vertex "v").2.console =
        [Output.text "ERROR::SHADER::COMPILATION_FAILED\nerror: syntax error"] := by
  refine ⟨rfl, ?_, rfl, ?_⟩
  · simp [createShaderProgram, compileShader, linkFailure, genName, print, GLState.fresh]
  · simp [compileShader, compileFailure, genName, print, GLState.fresh]

/-- The handle `createShaderProgram` returns is the third name it takes and is never 0,
whatever the compile and link status; the handle `compileShader` returns is 0 exactly
when the shader does not compile. -/
theorem shader_handles {α : Type} (d : Driver) (st : GLState α) (t : ShaderType)
    (vsrc fsrc : String) :
    (createShaderProgram d st vsrc fsrc).1 = st.nextName + 3
    ∧ (createShaderProgram d st vsrc fsrc).1 ≠ 0
    ∧ ((compileShader d st t vsrc).1 = 0 ↔ d.compileStatus t vsrc = false) := by
  have h : (createShaderProgram d st vsrc fsrc).1 = st.nextName + 3 := by
    simp only [createShaderProgram, compileShader, genName]
    split_ifs <;> simp [print]
  refine ⟨h, by rw [h]; omega, ?_⟩
  simp only [compileShader, genName]
  split_ifs with hc <;> simp_all

end VectorVis
